import Mathlib

/-!
Shallow embedding of the `golib` repository: the `apperror` package
(structured application errors with category/status metadata) and the two
copies of the `id` package (a typed wrapper around a 128-bit UUID value).

Go maps are reference types, so the embedding threads an explicit heap of
string-to-string maps; an `AppError`'s `Metadata` field is an optional
address into that heap (`none` models a nil Go map).
-/

namespace Golib

/-! ## Go error values

A Go `error` reaching this package is either a plain leaf error
(`errors.New`, no `Unwrap`), a wrapper error carrying its own rendered
message and an inner error (`fmt.Errorf` with a `%w` verb), or an
`*AppError` from this package.  The `app` constructor carries the
`AppError` fields inline to keep the inductive non-nested. -/

/-- `type Category int` from `apperror.go`: Go categories are plain
machine integers, so values outside the declared enumerators exist. -/
abbrev Category := Int

def ErrValidation : Category := 0
def ErrInternal : Category := 1
def ErrNotFound : Category := 2
def ErrMethoNotAllowed : Category := 3
def ErrSecurity : Category := 4
def ErrForbidden : Category := 5
def ErrUnauthorized : Category := 6

/-- `Code` struct: a category together with an optional internal code
(the zero value `0` standing for absent). -/
structure Code where
  Category : Category
  Internal : Int
deriving DecidableEq, Repr

/-- A Go map value lives on the heap; a metadata field is an address into
the heap, or `none` for a nil map. -/
abbrev MapRef := Option Nat

/-- Go error values, flattened: `app` carries the fields of an
`*AppError` inline. -/
inductive GoError where
  | plain (msg : String)
  | wrap (msg : String) (inner : GoError)
  | app (inner : GoError) (status : Int) (code : Code) (message : String) (metadata : MapRef)
deriving DecidableEq, Repr

/-- `AppError` struct from `apperror.go`. -/
structure AppError where
  Err : GoError
  Status : Int
  Code : Code
  Message : String
  Metadata : MapRef
deriving DecidableEq, Repr

/-- View an `*AppError` as a Go `error` value. -/
def AppError.toGoError (e : AppError) : GoError :=
  .app e.Err e.Status e.Code e.Message e.Metadata

/-- Rendered text of a Go error: a wrapper error's `Error()` returns its
own formatted message; an `*AppError`'s `Error()` delegates to the
wrapped cause. -/
def GoError.render : GoError → String
  | .plain msg => msg
  | .wrap msg _ => msg
  | .app inner _ _ _ _ => inner.render

/-! ## The heap of Go maps -/

/-- A Go `map[string]string` value, as an association list. -/
abbrev GoMap := List (String × String)

/-- `m[k]` lookup. -/
def GoMap.get (m : GoMap) (k : String) : Option String :=
  match m.find? (fun p => p.1 == k) with
  | some p => some p.2
  | none => none

/-- `m[k] = v` assignment: replace the binding if present, else add it. -/
def GoMap.set (m : GoMap) (k v : String) : GoMap :=
  match m with
  | [] => [(k, v)]
  | p :: rest => if p.1 == k then (k, v) :: rest else p :: GoMap.set rest k v

/-- The heap of allocated Go maps, indexed by address. -/
structure Heap where
  maps : List GoMap
deriving Repr

/-- `make(map[string]string)`-style allocation: returns the extended heap
and the fresh address. -/
def Heap.alloc (h : Heap) (m : GoMap) : Heap × Nat :=
  (⟨h.maps ++ [m]⟩, h.maps.length)

/-- Read the map stored at address `r`. -/
def Heap.read (h : Heap) (r : Nat) : Option GoMap :=
  h.maps.get? r

/-- Overwrite the map stored at address `r`. -/
def Heap.write (h : Heap) (r : Nat) (m : GoMap) : Heap :=
  ⟨h.maps.set r m⟩

/-! ## apperror: constructors -/

/-- `NewAppError(err, category, internalCode)`: allocates a fresh empty
metadata map and fills in the code, leaving `Status` and `Message` at
their zero values. -/
def NewAppError (err : GoError) (category : Category) (internalCode : Option Int)
    (h : Heap) : AppError × Heap :=
  let (h1, r) := h.alloc []
  match internalCode with
  | some n =>
      ({ Err := err, Status := 0, Code := { Category := category, Internal := n },
         Message := "", Metadata := some r }, h1)
  | none =>
      ({ Err := err, Status := 0, Code := { Category := category, Internal := 0 },
         Message := "", Metadata := some r }, h1)

/-- `Error()` method: delegates entirely to the wrapped cause. -/
def AppError.Error (err : AppError) : String :=
  err.Err.render

/-- `Unwrap()` method: returns the wrapped cause. -/
def AppError.Unwrap (err : AppError) : GoError :=
  err.Err

def StatusBadRequest : Int := 400
def StatusNotFound : Int := 404
def StatusUnauthorized : Int := 401
def StatusForbidden : Int := 403
def StatusInternalServerError : Int := 500

/-- `withStatus(internalCode, err)` from `apperror.go`: builds an
`AppError` whose `Code.Internal` is the given code and whose `Message`
is the cause's rendered text; `Status`, `Code.Category` and `Metadata`
are left at their zero values (`Metadata` is a nil map). -/
def withStatus (internalCode : Int) (err : GoError) : AppError :=
  { Err := err, Status := 0,
    Code := { Category := 0, Internal := internalCode },
    Message := err.render, Metadata := none }

/-- `BadRequest(err)`. -/
def BadRequest (err : GoError) : AppError :=
  withStatus StatusBadRequest err

/-- `NotFound(err)`. -/
def NotFound (err : GoError) : AppError :=
  withStatus StatusNotFound err

/-- `Unauthorized(err)`. -/
def Unauthorized (err : GoError) : AppError :=
  withStatus StatusUnauthorized err

/-- `Forbidden(err)`. -/
def Forbidden (err : GoError) : AppError :=
  withStatus StatusForbidden err

/-- `InternalServerError(err)`. -/
def InternalServerError (err : GoError) : AppError :=
  withStatus StatusInternalServerError err

/-! ## apperror: metadata attachment

The methods take a value receiver (a struct copy) and assign into the
copy's metadata map; the map itself is a shared reference.  Assigning
into a nil map panics in Go, modelled by returning `none`. -/

/-- Shared body of the with-style methods: `err.Metadata[key] = value`
on the value-receiver copy, returning the copy. -/
def AppError.withKey (err : AppError) (key value : String) (h : Heap) :
    Option (AppError × Heap) :=
  match err.Metadata with
  | none => none
  | some r =>
    match h.read r with
    | none => none
    | some m => some (err, h.write r (m.set key value))

/-- `WithField(value)`: sets the `"field"` key. -/
def AppError.WithField (err : AppError) (value : String) (h : Heap) :
    Option (AppError × Heap) :=
  err.withKey "field" value h

/-- `strconv.Itoa`. -/
def Itoa (i : Int) : String :=
  toString i

/-- `WithRow(row)`: sets the `"row"` key to the decimal form of `row`. -/
def AppError.WithRow (err : AppError) (row : Int) (h : Heap) :
    Option (AppError × Heap) :=
  err.withKey "row" (Itoa row) h

/-- `WithInfo(info)`: sets the `"info"` key. -/
def AppError.WithInfo (err : AppError) (info : String) (h : Heap) :
    Option (AppError × Heap) :=
  err.withKey "info" info h

/-! ## apperror: classification -/

/-- `errors.As(srcErr, &appErr)` with target type `*AppError`: walks
the unwrap chain and returns the first `*AppError` found. -/
def errorsAs : GoError → Option AppError
  | .plain _ => none
  | .wrap _ inner => errorsAs inner
  | .app inner status code message metadata =>
      some { Err := inner, Status := status, Code := code,
             Message := message, Metadata := metadata }

/-- `IsCategory(srcErr, category)`. -/
def IsCategory (srcErr : GoError) (category : Category) : Bool :=
  match errorsAs srcErr with
  | some appErr => appErr.Code.Category == category
  | none => false

/-- Specification-side observer: does any `*AppError` occur in the
unwrap chain of a Go error value?  Used only to state the
no-AppError-found clause of the `IsCategory` contract. -/
def hasAppError : GoError → Bool
  | .plain _ => false
  | .wrap _ inner => hasAppError inner
  | .app _ _ _ _ _ => true

/-- `Category.String()`: the `switch` in the source has cases for every
declared enumerator except `ErrSecurity`, which therefore falls through
to the default. -/
def Category.String (c : Category) : String :=
  if c = ErrValidation then "ValidationError"
  else if c = ErrInternal then "InternalError"
  else if c = ErrNotFound then "NotFouncError"
  else if c = ErrMethoNotAllowed then "MethoNotAllowedError"
  else if c = ErrForbidden then "ForbiddenError"
  else if c = ErrUnauthorized then "UnauthorizedError"
  else "UnkownCategoryError"

/-! ## The external `github.com/google/uuid` collaborator

Modelled from the spec: the `uuid` library is an external collaborator
(spec section 6), not code of this repository.  A UUID is a 16-byte
value; its canonical text form is 8-4-4-4-12 lowercase hex groups;
`uuid.New` draws 16 random bytes and stamps the version-4 and
RFC-4122-variant bits; `uuid.Nil` is the all-zero value; `uuid.MustParse`
aborts the process on malformed text. -/

/-- A `uuid.UUID` value: its 16 bytes in order. -/
abbrev UUID := List Nat

/-- `uuid.Nil`: the all-zero UUID. -/
def uuidNil : UUID := List.replicate 16 0

/-- Lowercase hex digit for a value below 16. -/
def hexChar (n : Nat) : Char :=
  if n = 0 then '0' else if n = 1 then '1' else if n = 2 then '2'
  else if n = 3 then '3' else if n = 4 then '4' else if n = 5 then '5'
  else if n = 6 then '6' else if n = 7 then '7' else if n = 8 then '8'
  else if n = 9 then '9' else if n = 10 then 'a' else if n = 11 then 'b'
  else if n = 12 then 'c' else if n = 13 then 'd' else if n = 14 then 'e'
  else if n = 15 then 'f' else '?'

/-- Numeric value of a hex digit character (upper or lower case). -/
def hexVal (c : Char) : Option Nat :=
  if c = '0' then some 0 else if c = '1' then some 1 else if c = '2' then some 2
  else if c = '3' then some 3 else if c = '4' then some 4 else if c = '5' then some 5
  else if c = '6' then some 6 else if c = '7' then some 7 else if c = '8' then some 8
  else if c = '9' then some 9 else if c = 'a' then some 10 else if c = 'b' then some 11
  else if c = 'c' then some 12 else if c = 'd' then some 13 else if c = 'e' then some 14
  else if c = 'f' then some 15 else if c = 'A' then some 10 else if c = 'B' then some 11
  else if c = 'C' then some 12 else if c = 'D' then some 13 else if c = 'E' then some 14
  else if c = 'F' then some 15 else none

/-- Two hex digits of a byte. -/
def byteToHex (b : Nat) : List Char :=
  [hexChar (b / 16), hexChar (b % 16)]

/-- `uuid.UUID.String()`: bytes 0-3, 4-5, 6-7, 8-9, 10-15 as hex groups
joined by dashes.  A `uuid.UUID` is a 16-byte array; other lengths are
unrepresentable in Go and render as the empty string here. -/
def UUID.toText (u : UUID) : String :=
  match u with
  | [b0, b1, b2, b3, b4, b5, b6, b7, b8, b9, b10, b11, b12, b13, b14, b15] =>
      String.mk (byteToHex b0 ++ (byteToHex b1
        ++ (byteToHex b2 ++ (byteToHex b3
        ++ (['-'] ++ (byteToHex b4 ++ (byteToHex b5
        ++ (['-'] ++ (byteToHex b6 ++ (byteToHex b7
        ++ (['-'] ++ (byteToHex b8 ++ (byteToHex b9
        ++ (['-'] ++ (byteToHex b10 ++ (byteToHex b11
        ++ (byteToHex b12 ++ (byteToHex b13
        ++ (byteToHex b14 ++ byteToHex b15)))))))))))))))))))
  | _ => ""

/-- Decode a flat run of hex digits into bytes, two digits per byte. -/
def parseHexPairs : List Char → Option (List Nat)
  | [] => some []
  | c1 :: c2 :: rest =>
    match hexVal c1, hexVal c2, parseHexPairs rest with
    | some hi, some lo, some bs => some ((16 * hi + lo) :: bs)
    | _, _, _ => none
  | [_] => none

/-- `uuid.Parse` restricted to the canonical 36-character form the
repository ever feeds it: 8-4-4-4-12 hex groups separated by dashes. -/
def UUID.parse (s : String) : Option UUID :=
  match s.data with
  | c0 :: c1 :: c2 :: c3 :: c4 :: c5 :: c6 :: c7 :: '-' ::
    d0 :: d1 :: d2 :: d3 :: '-' ::
    e0 :: e1 :: e2 :: e3 :: '-' ::
    f0 :: f1 :: f2 :: f3 :: '-' ::
    g0 :: g1 :: g2 :: g3 :: g4 :: g5 :: g6 :: g7 :: g8 :: g9 :: g10 :: g11 :: [] =>
      parseHexPairs (c0 :: c1 :: c2 :: c3 :: c4 :: c5 :: c6 :: c7 ::
        d0 :: d1 :: d2 :: d3 :: e0 :: e1 :: e2 :: e3 :: f0 :: f1 :: f2 :: f3 ::
        g0 :: g1 :: g2 :: g3 :: g4 :: g5 :: g6 :: g7 :: g8 :: g9 :: g10 :: g11 :: [])
  | _ => none

/-- `uuid.New()`: 16 random source bytes with byte 6 forced to version 4
(`b[6] = b[6]&0x0f | 0x40`) and byte 8 forced to the RFC 4122 variant
(`b[8] = b[8]&0x3f | 0x80`). -/
def uuidNew (random : List Nat) : UUID :=
  let b := random.set 6 (random.getD 6 0 % 16 + 64)
  b.set 8 (b.getD 8 0 % 64 + 128)

/-! ## The `id` package (`src/id/id.go`) -/

namespace id

/-- `type Id uuid.UUID`. -/
abbrev Id := UUID

/-- `NewId()`: a fresh random version-4 UUID, given the 16 random bytes
the external generator draws. -/
def NewId (random : List Nat) : Id :=
  uuidNew random

/-- `ToString()`. -/
def Id.ToString (i : Id) : String :=
  UUID.toText i

/-- `ToUUID()`. -/
def Id.ToUUID (i : Id) : UUID :=
  i

/-- Result of `FromString`: a returned validation error, a returned Id,
or a process abort (`uuid.MustParse` panicking on malformed text). -/
inductive FromStringResult where
  | err (msg : String)
  | ok (i : Id)
  | fatal
deriving DecidableEq, Repr

/-- `FromString(s)` from `src/id/id.go`: rejects the empty string and
the nil-UUID text, then calls `uuid.MustParse`. -/
def FromString (s : String) : FromStringResult :=
  if s = "" ∨ s = UUID.toText uuidNil then .err "string s cannot be empty"
  else
    match UUID.parse s with
    | some u => .ok u
    | none => .fatal

end id

/-! ## The duplicate `id` package (`src/pkg/id/id.go`) -/

namespace pkgid

/-- `NewId()` in the duplicate copy: returns the zero `Id` (nil UUID). -/
def NewId : id.Id :=
  uuidNil

/-- `FromString(s)` in the duplicate copy: rejects only the empty
string, then calls `uuid.MustParse`. -/
def FromString (s : String) : id.FromStringResult :=
  if s = "" then .err "string s cannot be empty"
  else
    match UUID.parse s with
    | some u => .ok u
    | none => .fatal

end pkgid

/-! ## Helper lemmas -/

theorem List.get?_append_singleton {α : Type} (l : List α) (m : α) :
    (l ++ [m]).get? l.length = some m := by
  induction l with
  | nil => rfl
  | cons a t ih => simp [ih]

theorem List.get?_set_self {α : Type} (l : List α) (r : Nat) (m : α)
    (hr : r < l.length) : (l.set r m).get? r = some m := by
  induction l generalizing r with
  | nil => simp at hr
  | cons a t ih =>
    cases r with
    | zero => rfl
    | succ n => simpa using ih n (by simpa using hr)

theorem List.get?_some_lt {α : Type} {l : List α} {r : Nat} {m : α}
    (hm : l.get? r = some m) : r < l.length := by
  induction l generalizing r with
  | nil => simp [List.get?] at hm
  | cons a t ih =>
    cases r with
    | zero => simp
    | succ n => simpa using ih (by simpa using hm)

/-- The map freshly allocated by `NewAppError`: its address and its
(empty) contents, for either shape of the optional internal code. -/
theorem NewAppError_metadata (cause : GoError) (c : Category) (ic : Option Int)
    (h : Heap) :
    (NewAppError cause c ic h).1.Metadata = some h.maps.length
    ∧ (NewAppError cause c ic h).2.read h.maps.length = some [] := by
  cases ic with
  | none =>
    exact ⟨rfl, List.get?_append_singleton h.maps []⟩
  | some n =>
    exact ⟨rfl, List.get?_append_singleton h.maps []⟩

/-- `withKey` on an error whose metadata address is live: it returns the
value-receiver copy unchanged together with the heap in which the shared
map has gained the binding. -/
theorem AppError.withKey_eq (e : AppError) (k v : String) (h : Heap)
    (r : Nat) (m : GoMap) (hr : e.Metadata = some r) (hm : h.read r = some m) :
    e.withKey k v h = some (e, h.write r (m.set k v)) := by
  simp [AppError.withKey, hr, hm]

/-- Looking up the key just set in a Go map. -/
theorem GoMap.get_set_self (m : GoMap) (k v : String) :
    (m.set k v).get k = some v := by
  induction m with
  | nil => simp [GoMap.set, GoMap.get, List.find?]
  | cons p rest ih =>
    by_cases hp : p.1 == k
    · simp [GoMap.set, hp, GoMap.get, List.find?]
    · simpa [GoMap.set, hp, GoMap.get, List.find?] using ih

/-- Reading back the address just written. -/
theorem Heap.read_write_self (h : Heap) (r : Nat) (m : GoMap)
    (hr : r < h.maps.length) : (h.write r m).read r = some m :=
  List.get?_set_self h.maps r m hr

/-! ## Claim theorems: the apperror package -/

/-- C1: the convenience constructors `BadRequest`, `NotFound`,
`Unauthorized`, `Forbidden` and `InternalServerError` do set `Message`
to the cause's rendered text and leave `Code.Category` at its zero
value, but they store the fixed HTTP code in `Code.Internal` and leave
the `Status` field at `0` — contrary to the claim (and to the source's
own doc comments, which say each "creates a new AppError with a status
code of" 400/404/401/403/500). -/
theorem convenience_status_lands_in_internal (err : GoError) :
    ((BadRequest err).Status = 0 ∧ (BadRequest err).Code.Internal = 400
      ∧ (BadRequest err).Message = err.render
      ∧ (BadRequest err).Code.Category = ErrValidation)
    ∧ ((NotFound err).Status = 0 ∧ (NotFound err).Code.Internal = 404
      ∧ (NotFound err).Message = err.render
      ∧ (NotFound err).Code.Category = ErrValidation)
    ∧ ((Unauthorized err).Status = 0 ∧ (Unauthorized err).Code.Internal = 401
      ∧ (Unauthorized err).Message = err.render
      ∧ (Unauthorized err).Code.Category = ErrValidation)
    ∧ ((Forbidden err).Status = 0 ∧ (Forbidden err).Code.Internal = 403
      ∧ (Forbidden err).Message = err.render
      ∧ (Forbidden err).Code.Category = ErrValidation)
    ∧ ((InternalServerError err).Status = 0
      ∧ (InternalServerError err).Code.Internal = 500
      ∧ (InternalServerError err).Message = err.render
      ∧ (InternalServerError err).Code.Category = ErrValidation) := by
  refine ⟨⟨rfl, rfl, rfl, rfl⟩, ⟨rfl, rfl, rfl, rfl⟩, ⟨rfl, rfl, rfl, rfl⟩,
    ⟨rfl, rfl, rfl, rfl⟩, ⟨rfl, rfl, rfl, rfl⟩⟩

/-- C2 counterexample: the claim quantifies over every `AppError`
produced by any public constructor, but the convenience constructors
leave `Metadata` as a nil map, so `WithField` on a `BadRequest`-built
error assigns into a nil map and panics (modelled as `none`). -/
theorem withField_panics_on_convenience_error :
    AppError.WithField (BadRequest (GoError.plain "boom")) "x" ⟨[]⟩ = none := rfl

/-- C2 (amended): restricted to errors built by the standard constructor
`NewAppError` — whose metadata map is always allocated — `WithField`,
`WithRow` and `WithInfo` are total: they always return a new `AppError`
and never reach the nil-map panic. -/
theorem with_operations_total_from_standard_constructor
    (h : Heap) (cause : GoError) (c : Category) (ic : Option Int)
    (v : String) (row : Int) (info : String) :
    (((NewAppError cause c ic h).1.WithField v (NewAppError cause c ic h).2).isSome = true)
    ∧ (((NewAppError cause c ic h).1.WithRow row (NewAppError cause c ic h).2).isSome = true)
    ∧ (((NewAppError cause c ic h).1.WithInfo info (NewAppError cause c ic h).2).isSome = true) := by
  obtain ⟨hr, hm⟩ := NewAppError_metadata cause c ic h
  refine ⟨?_, ?_, ?_⟩ <;>
    simp [AppError.WithField, AppError.WithRow, AppError.WithInfo,
      AppError.withKey_eq _ _ _ _ _ _ hr hm]

/-- C2 witness: at a concrete heap and inputs the three operations all
succeed on a `NewAppError`-built error. -/
theorem with_operations_total_from_standard_constructor_witness :
    ((Golib.NewAppError (.plain "boom") ErrNotFound none ⟨[]⟩).1.WithField "x"
        (Golib.NewAppError (.plain "boom") ErrNotFound none ⟨[]⟩).2).isSome = true
    ∧ ((Golib.NewAppError (.plain "boom") ErrNotFound none ⟨[]⟩).1.WithRow 7
        (Golib.NewAppError (.plain "boom") ErrNotFound none ⟨[]⟩).2).isSome = true
    ∧ ((Golib.NewAppError (.plain "boom") ErrNotFound none ⟨[]⟩).1.WithInfo "i"
        (Golib.NewAppError (.plain "boom") ErrNotFound none ⟨[]⟩).2).isSome = true :=
  with_operations_total_from_standard_constructor ⟨[]⟩ (.plain "boom") ErrNotFound none "x" 7 "i"

/-- C3: `IsCategory` recurses through ordinary wrapper errors, stops at
the first structural `AppError` (whatever its own wrapped chain holds)
and compares that error's `Code.Category`; on a chain with no `AppError`
it returns `false`.  It is a pure function of its arguments. -/
theorem isCategory_walks_chain_to_first_appError :
    (∀ (msg : String) (inner : GoError) (c : Category),
      IsCategory (GoError.wrap msg inner) c = IsCategory inner c)
    ∧ (∀ (a : AppError) (c : Category),
      IsCategory a.toGoError c = decide (a.Code.Category = c))
    ∧ (∀ (msg : String) (c : Category), IsCategory (GoError.plain msg) c = false)
    ∧ (∀ (e : GoError) (c : Category),
      hasAppError e = false → IsCategory e c = false) := by
  refine ⟨fun msg inner c => rfl, fun a c => rfl, fun msg c => rfl, fun e c he => ?_⟩
  induction e with
  | plain msg => rfl
  | wrap msg inner ih => exact ih (by simpa [hasAppError] using he)
  | app inner status code message metadata => simp [hasAppError] at he

/-- C3 witness: an `AppError` wrapped once in an ordinary wrapper is
still classified, and a chain without any `AppError` yields `false`. -/
theorem isCategory_walks_chain_to_first_appError_witness :
    IsCategory (GoError.wrap "context" (AppError.toGoError (BadRequest (.plain "b"))))
        ErrValidation
      = IsCategory (AppError.toGoError (BadRequest (.plain "b"))) ErrValidation
    ∧ IsCategory (GoError.wrap "context" (GoError.plain "p")) ErrNotFound = false :=
  ⟨isCategory_walks_chain_to_first_appError.1 "context"
      (AppError.toGoError (BadRequest (.plain "b"))) ErrValidation,
   isCategory_walks_chain_to_first_appError.2.2.2
      (GoError.wrap "context" (GoError.plain "p")) ErrNotFound rfl⟩

/-- C4: `WithField` on an error built by the standard constructor
succeeds, the returned copy shares the metadata address of the base
value, and after the call the map reachable through the base value's own
`Metadata` reference contains `"field" -> v` — and likewise for
`WithRow` and `WithInfo` with `"row"` and `"info"`. -/
theorem withField_mutates_shared_metadata
    (h : Heap) (cause : GoError) (c : Category) (ic : Option Int)
    (v : String) (row : Int) (info : String) :
    (∃ e2 h2,
      (NewAppError cause c ic h).1.WithField v (NewAppError cause c ic h).2 = some (e2, h2)
      ∧ e2.Metadata = (NewAppError cause c ic h).1.Metadata
      ∧ ∃ r m, (NewAppError cause c ic h).1.Metadata = some r
          ∧ h2.read r = some m ∧ m.get "field" = some v)
    ∧ (∃ e2 h2,
      (NewAppError cause c ic h).1.WithRow row (NewAppError cause c ic h).2 = some (e2, h2)
      ∧ e2.Metadata = (NewAppError cause c ic h).1.Metadata
      ∧ ∃ r m, (NewAppError cause c ic h).1.Metadata = some r
          ∧ h2.read r = some m ∧ m.get "row" = some (Itoa row))
    ∧ (∃ e2 h2,
      (NewAppError cause c ic h).1.WithInfo info (NewAppError cause c ic h).2 = some (e2, h2)
      ∧ e2.Metadata = (NewAppError cause c ic h).1.Metadata
      ∧ ∃ r m, (NewAppError cause c ic h).1.Metadata = some r
          ∧ h2.read r = some m ∧ m.get "info" = some info) := by
  obtain ⟨hr, hm⟩ := NewAppError_metadata cause c ic h
  have hlt : h.maps.length < (NewAppError cause c ic h).2.maps.length :=
    List.get?_some_lt hm
  refine ⟨?_, ?_, ?_⟩ <;>
    exact ⟨_, _, AppError.withKey_eq _ _ _ _ _ _ hr hm, rfl,
      h.maps.length, _, hr, Heap.read_write_self _ _ _ hlt, GoMap.get_set_self _ _ _⟩

/-- C5: `NewAppError` sets `Code.Category` to the given category,
`Code.Internal` to the given internal code (zero when absent), wraps the
cause, allocates an empty non-nil metadata map, and leaves `Status` and
`Message` at their zero values. -/
theorem newAppError_construction
    (h : Heap) (cause : GoError) (c : Category) (ic : Option Int) :
    (NewAppError cause c ic h).1.Code.Category = c
    ∧ (NewAppError cause c ic h).1.Code.Internal = ic.getD 0
    ∧ (NewAppError cause c ic h).1.Err = cause
    ∧ (∃ r, (NewAppError cause c ic h).1.Metadata = some r
        ∧ (NewAppError cause c ic h).2.read r = some [])
    ∧ (NewAppError cause c ic h).1.Status = 0
    ∧ (NewAppError cause c ic h).1.Message = "" := by
  obtain ⟨hr, hm⟩ := NewAppError_metadata cause c ic h
  cases ic with
  | none => exact ⟨rfl, rfl, rfl, ⟨_, hr, hm⟩, rfl, rfl⟩
  | some n => exact ⟨rfl, rfl, rfl, ⟨_, hr, hm⟩, rfl, rfl⟩

/-- C6: `Category.String` returns the fixed per-value name for six of
the seven declared enumerators, but the `switch` has no case for
`ErrSecurity`, so the defined value `ErrSecurity` (= 4) also gets the
fallback string — contrary to the claim that the fallback is returned
only for values outside the defined set. -/
theorem categoryString_security_gets_fallback :
    Category.String ErrValidation = "ValidationError"
    ∧ Category.String ErrInternal = "InternalError"
    ∧ Category.String ErrNotFound = "NotFouncError"
    ∧ Category.String ErrMethoNotAllowed = "MethoNotAllowedError"
    ∧ Category.String ErrForbidden = "ForbiddenError"
    ∧ Category.String ErrUnauthorized = "UnauthorizedError"
    ∧ Category.String ErrSecurity = "UnkownCategoryError"
    ∧ Category.String 7 = "UnkownCategoryError"
    ∧ Category.String (-1) = "UnkownCategoryError" := by
  refine ⟨rfl, rfl, rfl, rfl, rfl, rfl, rfl, rfl, rfl⟩

/-- C7: `Error()` renders exactly the wrapped cause's text, whatever the
`Message` field holds, and `Unwrap()` returns the wrapped cause. -/
theorem error_delegates_and_unwrap_returns_cause
    (cause : GoError) (status : Int) (code : Code) (message : String)
    (metadata : MapRef) :
    AppError.Error ⟨cause, status, code, message, metadata⟩ = cause.render
    ∧ AppError.Unwrap ⟨cause, status, code, message, metadata⟩ = cause :=
  ⟨rfl, rfl⟩

/-- C10: every convenience-constructed error carries the zero category,
which is `ErrValidation`, so `IsCategory` classifies all five kinds as
validation errors regardless of their HTTP-status semantics. -/
theorem convenience_errors_classify_as_validation (err : GoError) :
    IsCategory (AppError.toGoError (BadRequest err)) ErrValidation = true
    ∧ IsCategory (AppError.toGoError (NotFound err)) ErrValidation = true
    ∧ IsCategory (AppError.toGoError (Unauthorized err)) ErrValidation = true
    ∧ IsCategory (AppError.toGoError (Forbidden err)) ErrValidation = true
    ∧ IsCategory (AppError.toGoError (InternalServerError err)) ErrValidation = true :=
  ⟨rfl, rfl, rfl, rfl, rfl⟩

/-! ## Helper lemmas: hex round-trip -/

theorem hexVal_hexChar (n : Nat) (h : n < 16) : hexVal (hexChar n) = some n := by
  interval_cases n <;> rfl

/-- Decoding the two hex digits of a byte prepends that byte. -/
theorem parseHexPairs_cons (b : Nat) (hb : b < 256) (rest : List Char) :
    parseHexPairs (hexChar (b / 16) :: hexChar (b % 16) :: rest)
      = (parseHexPairs rest).map (fun bs => b :: bs) := by
  have h1 : hexVal (hexChar (b / 16)) = some (b / 16) := hexVal_hexChar _ (by omega)
  have h2 : hexVal (hexChar (b % 16)) = some (b % 16) := hexVal_hexChar _ (by omega)
  have h3 : 16 * (b / 16) + b % 16 = b := Nat.div_add_mod b 16
  simp only [parseHexPairs, h1, h2]
  cases parseHexPairs rest with
  | none => rfl
  | some bs => simp [h3]

/-- `UUID.parse` applied to a 36-character string of the canonical
shape, with arbitrary characters at the hex positions. -/
theorem UUID.parse_mk
    (c0 c1 c2 c3 c4 c5 c6 c7 d0 d1 d2 d3 e0 e1 e2 e3 f0 f1 f2 f3
      g0 g1 g2 g3 g4 g5 g6 g7 g8 g9 g10 g11 : Char) :
    UUID.parse (String.mk (c0 :: c1 :: c2 :: c3 :: c4 :: c5 :: c6 :: c7 :: '-' ::
        d0 :: d1 :: d2 :: d3 :: '-' :: e0 :: e1 :: e2 :: e3 :: '-' ::
        f0 :: f1 :: f2 :: f3 :: '-' ::
        g0 :: g1 :: g2 :: g3 :: g4 :: g5 :: g6 :: g7 :: g8 :: g9 :: g10 :: g11 :: []))
      = parseHexPairs (c0 :: c1 :: c2 :: c3 :: c4 :: c5 :: c6 :: c7 ::
        d0 :: d1 :: d2 :: d3 :: e0 :: e1 :: e2 :: e3 :: f0 :: f1 :: f2 :: f3 ::
        g0 :: g1 :: g2 :: g3 :: g4 :: g5 :: g6 :: g7 :: g8 :: g9 :: g10 :: g11 :: []) :=
  rfl

/-- `UUID.toText` on explicit bytes, spelled out character by character. -/
theorem UUID.toText_explicit (b0 b1 b2 b3 b4 b5 b6 b7 b8 b9 b10 b11 b12 b13 b14 b15 : Nat) :
    UUID.toText [b0, b1, b2, b3, b4, b5, b6, b7, b8, b9, b10, b11, b12, b13, b14, b15]
      = String.mk (hexChar (b0 / 16) :: hexChar (b0 % 16) ::
        hexChar (b1 / 16) :: hexChar (b1 % 16) ::
        hexChar (b2 / 16) :: hexChar (b2 % 16) ::
        hexChar (b3 / 16) :: hexChar (b3 % 16) :: '-' ::
        hexChar (b4 / 16) :: hexChar (b4 % 16) ::
        hexChar (b5 / 16) :: hexChar (b5 % 16) :: '-' ::
        hexChar (b6 / 16) :: hexChar (b6 % 16) ::
        hexChar (b7 / 16) :: hexChar (b7 % 16) :: '-' ::
        hexChar (b8 / 16) :: hexChar (b8 % 16) ::
        hexChar (b9 / 16) :: hexChar (b9 % 16) :: '-' ::
        hexChar (b10 / 16) :: hexChar (b10 % 16) ::
        hexChar (b11 / 16) :: hexChar (b11 % 16) ::
        hexChar (b12 / 16) :: hexChar (b12 % 16) ::
        hexChar (b13 / 16) :: hexChar (b13 % 16) ::
        hexChar (b14 / 16) :: hexChar (b14 % 16) ::
        hexChar (b15 / 16) :: hexChar (b15 % 16) :: []) :=
  rfl

/-- Parsing the canonical text of a 16-byte value recovers its bytes. -/
theorem UUID.parse_toText (b0 b1 b2 b3 b4 b5 b6 b7 b8 b9 b10 b11 b12 b13 b14 b15 : Nat)
    (hb : ∀ b ∈ [b0, b1, b2, b3, b4, b5, b6, b7, b8, b9, b10, b11, b12, b13, b14, b15],
      b < 256) :
    UUID.parse (UUID.toText [b0, b1, b2, b3, b4, b5, b6, b7, b8, b9, b10, b11, b12, b13, b14, b15])
      = some [b0, b1, b2, b3, b4, b5, b6, b7, b8, b9, b10, b11, b12, b13, b14, b15] := by
  simp only [List.mem_cons, List.not_mem_nil, or_false, forall_eq_or_imp, forall_eq] at hb
  obtain ⟨h0, h1, h2, h3, h4, h5, h6, h7, h8, h9, h10, h11, h12, h13, h14, h15⟩ := hb
  rw [UUID.toText_explicit, UUID.parse_mk,
    parseHexPairs_cons b0 h0, parseHexPairs_cons b1 h1, parseHexPairs_cons b2 h2,
    parseHexPairs_cons b3 h3, parseHexPairs_cons b4 h4, parseHexPairs_cons b5 h5,
    parseHexPairs_cons b6 h6, parseHexPairs_cons b7 h7, parseHexPairs_cons b8 h8,
    parseHexPairs_cons b9 h9, parseHexPairs_cons b10 h10, parseHexPairs_cons b11 h11,
    parseHexPairs_cons b12 h12, parseHexPairs_cons b13 h13, parseHexPairs_cons b14 h14,
    parseHexPairs_cons b15 h15]
  rfl

/-! ## Claim theorems: the id packages -/

/-- C8 counterexample: the claim says `fromString` fails exactly on the
empty string and the nil-UUID text, but the duplicate copy of the
package in `src/pkg/id/id.go` accepts the nil-UUID text and returns the
nil `Id`. -/
theorem pkg_fromString_accepts_nil_uuid_text :
    pkgid.FromString "00000000-0000-0000-0000-000000000000"
      = id.FromStringResult.ok uuidNil := rfl

/-- C8 (amended): the canonical copy (`src/id/id.go`) fails with a
validation error exactly when the input is empty or is the nil-UUID
text, and on every other input parses, aborting (rather than returning
an error) on malformed text; the duplicate copy (`src/pkg/id/id.go`)
rejects only the empty string and otherwise behaves the same way, so it
accepts the nil-UUID text. -/
theorem fromString_validation_characterization :
    (∀ s, (∃ m, id.FromString s = id.FromStringResult.err m)
      ↔ (s = "" ∨ s = "00000000-0000-0000-0000-000000000000"))
    ∧ UUID.toText uuidNil = "00000000-0000-0000-0000-000000000000"
    ∧ (∀ s, ¬(s = "" ∨ s = "00000000-0000-0000-0000-000000000000") →
        id.FromString s = (match UUID.parse s with
          | some u => id.FromStringResult.ok u
          | none => id.FromStringResult.fatal))
    ∧ (∀ s, (∃ m, pkgid.FromString s = id.FromStringResult.err m) ↔ s = "")
    ∧ (∀ s, s ≠ "" →
        pkgid.FromString s = (match UUID.parse s with
          | some u => id.FromStringResult.ok u
          | none => id.FromStringResult.fatal)) := by
  refine ⟨fun s => ⟨fun ⟨m, hm⟩ => ?_, fun hcond => ?_⟩, rfl, fun s hcond => ?_,
    fun s => ⟨fun ⟨m, hm⟩ => ?_, fun hs => ?_⟩, fun s hs => ?_⟩
  · unfold id.FromString at hm
    by_cases hcond : s = "" ∨ s = UUID.toText uuidNil
    · exact hcond
    · rw [if_neg hcond] at hm
      cases hp : UUID.parse s with
      | some u => rw [hp] at hm; simp at hm
      | none => rw [hp] at hm; simp at hm
  · refine ⟨"string s cannot be empty", ?_⟩
    unfold id.FromString
    rw [if_pos (show s = "" ∨ s = UUID.toText uuidNil from hcond)]
  · unfold id.FromString
    rw [if_neg (show ¬(s = "" ∨ s = UUID.toText uuidNil) from hcond)]
  · unfold pkgid.FromString at hm
    by_cases hs : s = ""
    · exact hs
    · rw [if_neg hs] at hm
      cases hp : UUID.parse s with
      | some u => rw [hp] at hm; simp at hm
      | none => rw [hp] at hm; simp at hm
  · subst hs; exact ⟨"string s cannot be empty", rfl⟩
  · unfold pkgid.FromString
    rw [if_neg hs]

/-- C8 witness: the characterization evaluated at the empty string, the
nil-UUID text, a malformed input (process abort) and a well-formed
UUID. -/
theorem fromString_validation_characterization_witness :
    (∃ m, id.FromString "" = id.FromStringResult.err m)
    ∧ (∃ m, id.FromString "00000000-0000-0000-0000-000000000000"
        = id.FromStringResult.err m)
    ∧ id.FromString "zz" = id.FromStringResult.fatal
    ∧ id.FromString "01020304-0506-4708-890a-0b0c0d0e0f10"
        = id.FromStringResult.ok [1, 2, 3, 4, 5, 6, 71, 8, 137, 10, 11, 12, 13, 14, 15, 16]
    ∧ pkgid.FromString "zz" = id.FromStringResult.fatal := by
  refine ⟨(fromString_validation_characterization.1 "").mpr (Or.inl rfl),
    (fromString_validation_characterization.1 _).mpr (Or.inr rfl), ?_, ?_, ?_⟩
  · rw [fromString_validation_characterization.2.2.1 "zz" (by decide)]
    rfl
  · rw [fromString_validation_characterization.2.2.1
      "01020304-0506-4708-890a-0b0c0d0e0f10" (by decide)]
    rfl
  · rw [fromString_validation_characterization.2.2.2.2 "zz" (by decide)]
    rfl

/-- C9: for an `Id` freshly generated from any 16 random bytes,
`FromString (ToString id)` succeeds and returns the same underlying
16-byte value; parsing is deterministic, so two `Id`s built from the
same UUID text are equal; and the round trip also holds for the
duplicate package, whose `NewId` returns the zero `Id`. -/
theorem newId_toString_fromString_roundtrip
    (r0 r1 r2 r3 r4 r5 r6 r7 r8 r9 r10 r11 r12 r13 r14 r15 : Nat)
    (hr : ∀ r ∈ [r0, r1, r2, r3, r4, r5, r6, r7, r8, r9, r10, r11, r12, r13, r14, r15],
      r < 256) :
    id.FromString (id.Id.ToString
        (id.NewId [r0, r1, r2, r3, r4, r5, r6, r7, r8, r9, r10, r11, r12, r13, r14, r15]))
      = id.FromStringResult.ok
        (id.NewId [r0, r1, r2, r3, r4, r5, r6, r7, r8, r9, r10, r11, r12, r13, r14, r15])
    ∧ (∀ s i1 i2, id.FromString s = id.FromStringResult.ok i1 →
        id.FromString s = id.FromStringResult.ok i2 → i1 = i2)
    ∧ pkgid.FromString (id.Id.ToString pkgid.NewId) = id.FromStringResult.ok pkgid.NewId
    ∧ (∀ s i1 i2, pkgid.FromString s = id.FromStringResult.ok i1 →
        pkgid.FromString s = id.FromStringResult.ok i2 → i1 = i2) := by
  simp only [List.mem_cons, List.not_mem_nil, or_false, forall_eq_or_imp, forall_eq] at hr
  obtain ⟨h0, h1, h2, h3, h4, h5, h6, h7, h8, h9, h10, h11, h12, h13, h14, h15⟩ := hr
  have hparse : UUID.parse (UUID.toText
      [r0, r1, r2, r3, r4, r5, r6 % 16 + 64, r7, r8 % 64 + 128, r9, r10, r11, r12, r13, r14, r15])
      = some [r0, r1, r2, r3, r4, r5, r6 % 16 + 64, r7, r8 % 64 + 128, r9, r10, r11, r12, r13, r14, r15] :=
    UUID.parse_toText _ _ _ _ _ _ _ _ _ _ _ _ _ _ _ _
      (by intro b hb; fin_cases hb <;> omega)
  refine ⟨?_, fun s i1 i2 ha hb => by rw [ha] at hb; injection hb,
    rfl, fun s i1 i2 ha hb => by rw [ha] at hb; injection hb⟩
  have hcond : ¬(UUID.toText
      [r0, r1, r2, r3, r4, r5, r6 % 16 + 64, r7, r8 % 64 + 128, r9, r10, r11, r12, r13, r14, r15] = ""
      ∨ UUID.toText
      [r0, r1, r2, r3, r4, r5, r6 % 16 + 64, r7, r8 % 64 + 128, r9, r10, r11, r12, r13, r14, r15]
        = UUID.toText uuidNil) := by
    rintro (hs | hs)
    · rw [hs] at hparse
      rw [show UUID.parse "" = none from rfl] at hparse
      exact Option.noConfusion hparse
    · rw [hs] at hparse
      rw [show UUID.parse (UUID.toText uuidNil) = some uuidNil from rfl] at hparse
      injection hparse with hlist
      simp [uuidNil, List.replicate] at hlist
  show id.FromString (UUID.toText
      [r0, r1, r2, r3, r4, r5, r6 % 16 + 64, r7, r8 % 64 + 128, r9, r10, r11, r12, r13, r14, r15])
    = id.FromStringResult.ok
      [r0, r1, r2, r3, r4, r5, r6 % 16 + 64, r7, r8 % 64 + 128, r9, r10, r11, r12, r13, r14, r15]
  unfold id.FromString
  rw [if_neg hcond, hparse]

/-- C9 witness: the round trip at a concrete random draw. -/
theorem newId_toString_fromString_roundtrip_witness :
    (∀ r ∈ [1, 2, 3, 4, 5, 6, 7, 8, 9, 10, 11, 12, 13, 14, 15, 16], r < 256)
    ∧ id.FromString (id.Id.ToString
        (id.NewId [1, 2, 3, 4, 5, 6, 7, 8, 9, 10, 11, 12, 13, 14, 15, 16]))
      = id.FromStringResult.ok
        (id.NewId [1, 2, 3, 4, 5, 6, 7, 8, 9, 10, 11, 12, 13, 14, 15, 16]) :=
  ⟨by decide,
   (newId_toString_fromString_roundtrip 1 2 3 4 5 6 7 8 9 10 11 12 13 14 15 16 (by decide)).1⟩

end Golib
